import Mathlib

/-!
Shallow embedding of `src/mcp_sync_local.py` (MarkD MCP Sync Local).

Document contents are modelled as `List Char` (Python `str`).  The three
frontmatter operations of `MarkDSyncClient` are driven by the Python regex
`^---\s*\n(.*?)\n---\s*\n` with `re.DOTALL`; the functions below implement
that regex's backtracking semantics directly:
  - `---` must occur at the very start;
  - the opening `\s*\n` greedily consumes whitespace, backtracking over the
    newlines of the maximal whitespace run (last newline tried first);
  - the lazy group `(.*?)` stops at the first position where the closing
    `\n---\s*\n` matches;
  - the closing `\s*\n` greedily consumes the maximal whitespace run after
    the closing `---`, ending after the run's last newline.
-/

namespace MarkdSync

/-- Python string = sequence of characters. -/
abbrev Str := List Char

/-- Code points matched by Python's `\s` for `str` patterns (equals the set of
characters for which `str.isspace()` holds, used by `str.strip()`). -/
def pySpaceCodes : List Nat :=
  [0x9, 0xa, 0xb, 0xc, 0xd, 0x1c, 0x1d, 0x1e, 0x1f, 0x20, 0x85, 0xa0,
   0x1680, 0x2000, 0x2001, 0x2002, 0x2003, 0x2004, 0x2005, 0x2006, 0x2007,
   0x2008, 0x2009, 0x200a, 0x2028, 0x2029, 0x202f, 0x205f, 0x3000]

/-- Whether a character is Python whitespace (`\s`, `str.isspace`). -/
def isPySpace (c : Char) : Bool := pySpaceCodes.contains c.toNat

/-- Split a string into its maximal leading whitespace run and the rest. -/
def wsRun : Str → Str × Str
  | [] => ([], [])
  | c :: cs =>
    if isPySpace c then
      let p := wsRun cs
      (c :: p.1, p.2)
    else ([], c :: cs)

/-- For a whitespace run `u` followed by rest `r`: the list of remainders
obtained by cutting just after each newline of `u`, earliest newline first.
These are exactly the continuation points `\s*\n` can yield. -/
def nlSplits : Str → Str → List Str
  | [], _ => []
  | c :: cs, r =>
    if c = '\n' then (cs ++ r) :: nlSplits cs r else nlSplits cs r

/-- Greedy `\s*\n` with nothing after it (the closing delimiter's tail):
succeeds iff the maximal whitespace run contains a newline, consuming the run
up to and including its last newline. -/
def matchWsNl (s : Str) : Option Str :=
  let p := wsRun s
  (nlSplits p.1 p.2).getLast?

/-- Lazy scan of `(.*?)\n---\s*\n`: returns the captured group and the
remainder after the full match at the first position where the closing
delimiter matches. `acc` holds the group accumulated so far, reversed. -/
def findClose (acc : Str) : Str → Option (Str × Str)
  | [] => none
  | c :: cs =>
    if c = '\n' then
      match cs with
      | '-' :: '-' :: '-' :: t =>
        (match matchWsNl t with
         | some rest => some (acc.reverse, rest)
         | none => findClose (c :: acc) cs)
      | _ => findClose (c :: acc) cs
    else findClose (c :: acc) cs

/-- First `some` produced by `f` over a list, in order. -/
def findFirstSome {α β : Type} (f : α → Option β) : List α → Option β
  | [] => none
  | a :: as =>
    match f a with
    | some b => some b
    | none => findFirstSome f as

/-- Python `re.match(r'^---\s*\n(.*?)\n---\s*\n', content, re.DOTALL)`:
`some (group1, remainder-after-match)` when the regex matches at the start.
The opening `\s*\n` candidates are tried greedily (last newline of the
whitespace run first), backtracking to earlier newlines if the rest of the
pattern cannot match. -/
def headerMatch : Str → Option (Str × Str)
  | '-' :: '-' :: '-' :: rest =>
    let p := wsRun rest
    findFirstSome (fun cand => findClose [] cand) (nlSplits p.1 p.2).reverse
  | _ => none

/-- Python `re.match(r'^---\s*\n', content)` as a Boolean: the content starts
with `---` and the following maximal whitespace run contains a newline. -/
def matchesOpen : Str → Bool
  | '-' :: '-' :: '-' :: rest =>
    let p := wsRun rest
    !(nlSplits p.1 p.2).isEmpty
  | _ => false

/-- Model of `MarkDSyncClient.strip_metadata` (lines 296-302): drop the frontmatter
block when the header regex matches at the start, else return unchanged. -/
def strip_metadata (content : Str) : Str :=
  match headerMatch content with
  | some gr => gr.2
  | none => content

/-- Python `str.strip()`: remove leading and trailing whitespace. -/
def pyStrip (s : Str) : Str :=
  ((s.dropWhile isPySpace).reverse.dropWhile isPySpace).reverse

/-- Double or single quote character (the argument of `.strip('"\'')`). -/
def isQuoteCh (c : Char) : Bool := c = '"' || c = Char.ofNat 39

/-- Python `str.strip('"\'')`: remove leading and trailing quote characters. -/
def stripQuotes (s : Str) : Str :=
  ((s.dropWhile isQuoteCh).reverse.dropWhile isQuoteCh).reverse

/-- Python `str.split('\n')`. -/
def splitNl : Str → List Str
  | [] => [[]]
  | c :: cs =>
    if c = '\n' then [] :: splitNl cs
    else
      match splitNl cs with
      | [] => [[c]]
      | l :: ls => (c :: l) :: ls

/-- Python `line.split(':', 1)` when the line contains `':'`:
the part before the first colon and the part after it. -/
def splitColon1 (acc : Str) : Str → Option (Str × Str)
  | [] => none
  | c :: cs => if c = ':' then some (acc.reverse, cs) else splitColon1 (c :: acc) cs

/-- A Python dict with string keys and values, insertion-ordered. -/
abbrev Meta := List (Str × Str)

/-- Python dict assignment `m[k] = v`: update in place if the key exists,
else append. -/
def mset (m : Meta) (k v : Str) : Meta :=
  if m.any (fun kv => kv.1 == k) then
    m.map (fun kv => if kv.1 == k then (k, v) else kv)
  else m ++ [(k, v)]

/-- Python dict `m.get(k)`: `some` value or `none`. -/
def mget (m : Meta) (k : Str) : Option Str :=
  (m.find? (fun kv => kv.1 == k)).map (fun kv => kv.2)

/-- One line of the frontmatter body: `if ':' in line: k, v = line.split(':', 1);
metadata[k.strip()] = v.strip().strip('"\'')`; a line without `':'` is ignored. -/
def processLine (m : Meta) (line : Str) : Meta :=
  match splitColon1 [] line with
  | some kv => mset m (pyStrip kv.1) (stripQuotes (pyStrip kv.2))
  | none => m

/-- Model of `MarkDSyncClient.extract_metadata` (lines 281-294). -/
def extract_metadata (content : Str) : Meta :=
  match headerMatch content with
  | some gr => (splitNl gr.1).foldl processLine []
  | none => []

/-- Python truthiness of an optional string (`None` and `""` are falsy). -/
def truthyOpt : Option Str → Bool
  | none => false
  | some s => !s.isEmpty

/-- The frontmatter block built by `add_metadata_to_content` (lines 306-313). -/
def mkFrontmatter (doc_id name : Str) (parent_id : Option Str) : Str :=
  let fm1 := "---\nmarkd_id: ".data ++ doc_id ++ "\nmarkd_name: ".data ++ name
    ++ "\n".data
  let fm2 :=
    if truthyOpt parent_id then
      fm1 ++ "markd_parent: ".data ++ parent_id.getD [] ++ "\n".data
    else fm1
  fm2 ++ "---\n\n".data

/-- Model of `MarkDSyncClient.add_metadata_to_content` (lines 304-319): build the new
frontmatter; if the content starts with `---\s*\n`, remove the first full
header match (`re.sub` with an anchored pattern removes at most the prefix
match); prepend the new frontmatter. -/
def add_metadata_to_content (content doc_id name : Str)
    (parent_id : Option Str) : Str :=
  let body :=
    if matchesOpen content then
      match headerMatch content with
      | some gr => gr.2
      | none => content
    else content
  mkFrontmatter doc_id name parent_id ++ body

/-- Resolution of the document name in `push_file` (line 179):
`doc_name = metadata.get('markd_name') or file_path.stem`. -/
def resolveName (m : Meta) (stem : Str) : Str :=
  match mget m "markd_name".data with
  | some v => if v.isEmpty then stem else v
  | none => stem

/-- A remote API call issued by `push_file`:
`create_document(name, content, metadata)` posts
`{name, content: strip_metadata(content), parent_id: metadata.get('markd_parent')}`
(lines 195-211); `update_document(doc_id, content, name)` puts
`{content: strip_metadata(content), name}` (lines 213-225). -/
inductive ApiCall where
  | create (name body : Str) (parent_id : Option Str)
  | update (doc_id body name : Str)
  deriving DecidableEq

/-- Environment of one `push_file` invocation: the file's content on disk
(`none` means `read_text` raises, e.g. the file was deleted), the filename
stem, and the outcomes the remote API would give to a create or an update
(`Except.error` carries the response body of a non-200 status). -/
structure PushEnv where
  fileContent : Option Str
  stem : Str
  createResp : Except Str Str
  updateResp : Except Str Unit

/-- Observable result of `push_file`: the API call it attempted (if it got
that far), the content it wrote back to the file (if any), and the message of
the exception its `except` clause caught (if any).  `push_file` always
returns; it never re-raises. -/
structure PushResult where
  call : Option ApiCall
  written : Option Str
  caught : Option Str
  deriving DecidableEq

/-- Message standing for the exception raised when `read_text` fails. -/
def readErrMsg : Str := "read failed".data

/-- Model of `MarkDSyncClient.push_file` (lines 170-193), with
`add_metadata_to_file` (lines 321-325) inlined on the create path: read the
file, extract metadata; if `markd_id` is missing or empty create the document
and write the returned id (with the resolved name and the header's
`markd_parent`) back into the file; otherwise update document `markd_id`.
Every exception (read failure or non-200 API response) is caught at the
bottom of the function.  `add_metadata_to_file` re-reads the file; no other
write has intervened in this single-task model, so it sees `content`. -/
def push_file (env : PushEnv) : PushResult :=
  match env.fileContent with
  | none => { call := none, written := none, caught := some readErrMsg }
  | some content =>
    let metadata := extract_metadata content
    let doc_id := mget metadata "markd_id".data
    let doc_name := resolveName metadata env.stem
    let parent := mget metadata "markd_parent".data
    if truthyOpt doc_id then
      let theCall := ApiCall.update (doc_id.getD []) (strip_metadata content) doc_name
      match env.updateResp with
      | .error e => { call := some theCall, written := none, caught := some e }
      | .ok _ => { call := some theCall, written := none, caught := none }
    else
      let theCall := ApiCall.create doc_name (strip_metadata content) parent
      match env.createResp with
      | .error e => { call := some theCall, written := none, caught := some e }
      | .ok newId =>
        { call := some theCall
          written := some (add_metadata_to_content content newId doc_name parent)
          caught := none }

/-!  Debounce scheduler (`MarkDSyncHandler`, lines 19-58), for one tracked
path.  `pending_changes[path]` is an `Option ℚ` (the `observed_at` timestamp
of the last event, or absent).  Each create/modify event at time `t` stores
`t` and arms a timer that fires at `t + debounce_time`; at fire time the
handler checks that the entry is present and that `now - observed_at >=
debounce_time`, and only then pushes and deletes the entry. -/

/-- A happening on the scheduler's timeline: a filesystem event at time `t`
(`on_modified`/`on_created`, lines 27-47), or the firing of the timer armed
at time `armed` (the wake-up of `debounced_push`, lines 49-58), occurring at
time `armed + debounce_time`. -/
inductive Hap where
  | ev (t : ℚ)
  | fire (armed : ℚ)

/-- The wall-clock time at which a happening occurs. -/
def hapTime (d : ℚ) : Hap → ℚ
  | .ev t => t
  | .fire a => a + d

/-- One scheduler step: an event overwrites the pending timestamp
(line 34/46); a timer firing at `now = armed + d` pushes and clears the entry
iff the entry is present and `now - observed_at ≥ d` (lines 54-58).  Returns
the new pending entry and the time of the push, if one fired. -/
def schedStep (d : ℚ) (pend : Option ℚ) : Hap → Option ℚ × Option ℚ
  | .ev t => (some t, none)
  | .fire a =>
    match pend with
    | some last => if d ≤ a + d - last then (none, some (a + d)) else (some last, none)
    | none => (none, none)

/-- Run the scheduler over a timeline of happenings (listed in time order),
collecting the times at which pushes fire. -/
def schedRun (d : ℚ) : Option ℚ → List Hap → List ℚ
  | _, [] => []
  | pend, h :: hs =>
    let r := schedStep d pend h
    match r.2 with
    | some pt => pt :: schedRun d r.1 hs
    | none => schedRun d r.1 hs

/-- The timeline of the three-event scenario: events at t=0, 1/2, 1, each
arming a timer of duration 2, so fires occur at t=2, 5/2, 3; listed in time
order. -/
def scenarioHaps : List Hap :=
  [.ev 0, .ev (1/2), .ev 1, .fire 0, .fire (1/2), .fire 1]

/-!  Pull/reconciliation (`sync_tree_to_files`, lines 239-270) and the
lenient content fetch (`get_document_content`, lines 272-279). -/

/-- A node of the remote tree as returned by `/api/documents/tree`:
`{id, name, type: "file"|"folder", parent_id?, children?}`. -/
inductive RNode where
  | file (id name : Str) (parent_id : Option Str)
  | folder (id name : Str) (children : List RNode)

/-- The local filesystem: files as a path ↦ content map (paths are lists of
components relative to the docs root; an earlier entry shadows later ones,
so `writeFs` creates or overwrites), plus the set of directories. -/
structure FS where
  files : List (List Str × Str)
  dirs : List (List Str)
  deriving DecidableEq

/-- Model of `file_path.write_text(...)`: create or overwrite. -/
def writeFs (fs : FS) (p : List Str) (c : Str) : FS :=
  { fs with files := (p, c) :: fs.files }

/-- Content of a file, if present. -/
def readFs (fs : FS) (p : List Str) : Option Str :=
  (fs.files.find? (fun e => e.1 == p)).map (fun e => e.2)

/-- Model of `folder_path.mkdir(exist_ok=True)`: total, never an error; recorded as
set insertion, so creating an existing directory changes nothing
observable. -/
def mkdirFs (fs : FS) (p : List Str) : FS :=
  { fs with dirs := p :: fs.dirs }

/-- The remote store for content fetches: `some body` on a 200 response,
`none` when the server reports non-success. -/
abbrev Fetch := Str → Option Str

/-- Model of `MarkDSyncClient.get_document_content` (lines 272-279): return `""` on a
non-200 status instead of raising; otherwise the document's content. -/
def get_document_content (fetch : Fetch) (doc_id : Str) : Str :=
  match fetch doc_id with
  | none => []
  | some c => c

/-- Model of `MarkDSyncClient.sync_tree_to_files` (lines 239-270): walk the item list
in order; for a file, write `<dir>/<name>.md` with the fetched content under
a fresh injected header; for a folder, `mkdir` the subdirectory and recurse
into its children (the code guards the recursion on `item.get('children')`
being truthy, so an empty child list skips it). -/
def sync_tree_to_files (fetch : Fetch) : List RNode → List Str → FS → FS
  | [], _, fs => fs
  | .file id name parent_id :: rest, dir, fs =>
    let content := get_document_content fetch id
    let withMeta := add_metadata_to_content content id name parent_id
    let fs1 := writeFs fs (dir ++ [name ++ ".md".data]) withMeta
    sync_tree_to_files fetch rest dir fs1
  | .folder _ name children :: rest, dir, fs =>
    let fs1 := mkdirFs fs (dir ++ [name])
    let fs2 :=
      if children.isEmpty then fs1
      else sync_tree_to_files fetch children (dir ++ [name]) fs1
    sync_tree_to_files fetch rest dir fs2

/-!  Derived forms of the codec used by the proofs. -/

/-- Remainder of `b` after the closing delimiter's greedy `\s*\n` has
consumed `"---\n\n" ++ b`'s trailing whitespace: everything after the last
newline of `b`'s maximal leading whitespace run (all of `b` when that run has
no newline). -/
def afterWsNl (b : Str) : Str :=
  ((nlSplits (wsRun b).1 (wsRun b).2).getLast?).getD b

/-- Sub step of `add_metadata_to_content`: the content with its leading
header match removed when `^---\s*\n` matches, else unchanged. -/
def injBody (c : Str) : Str := if matchesOpen c then strip_metadata c else c

/-- The group captured by the header regex on an injected header. -/
def mkGroup (i n : Str) (p : Option Str) : Str :=
  if truthyOpt p then
    ("markd_id: ".data ++ i) ++
      '\n' :: (("markd_name: ".data ++ n) ++
        '\n' :: ("markd_parent: ".data ++ p.getD []))
  else
    ("markd_id: ".data ++ i) ++ '\n' :: ("markd_name: ".data ++ n)

/-!  Concrete scenarios used by witnesses and counterexamples. -/

/-- A file content carrying a header with `markd_id: x1`. -/
def c2Content : Str := add_metadata_to_content "body".data "x1".data "N".data none

/-- Push environment whose file already has a remote id. -/
def c2Env : PushEnv := ⟨some c2Content, "stem".data, .error "ce".data, .ok ()⟩

/-- Push environment where create returns an id containing a newline. -/
def c5Env : PushEnv := ⟨some [], "f".data, .ok ("a\nb".data), .ok ()⟩

/-- Push environment for a headerless file whose create succeeds. -/
def c5wEnv : PushEnv := ⟨some [], "st".data, .ok "nid".data, .ok ()⟩

/-- Push environment whose file read fails. -/
def c8EnvMissing : PushEnv := ⟨none, "s".data, .ok "i".data, .ok ()⟩

/-- Push environment on the create path whose create call fails. -/
def c8EnvCreateFail : PushEnv := ⟨some [], "s".data, .error "boom".data, .ok ()⟩

/-- Push environment on the update path whose update call fails. -/
def c8EnvUpdateFail : PushEnv := ⟨some c2Content, "s".data, .ok "i".data, .error "uerr".data⟩

/-- A file content whose header has empty `markd_id` and `markd_name` values. -/
def c10Content : Str := "---\nmarkd_id: \"\"\nmarkd_name: \"\"\n---\n\nbody".data

/-- Push environment for the empty-id file. -/
def c10Env : PushEnv := ⟨some c10Content, "f".data, .ok "nid".data, .ok ()⟩

/-- Remote tree `Folder("A", children=[File("B", "hi")])` (node ids `a1`, `b1`). -/
def c6Tree : List RNode :=
  [.folder "a1".data "A".data [.file "b1".data "B".data (some "a1".data)]]

/-- Remote store serving content `"hi"` for node `b1`. -/
def c6Fetch : Fetch := fun i => if i == "b1".data then some "hi".data else none

/-- Result of pulling `c6Tree` into an empty document root. -/
def c6Result : FS := sync_tree_to_files c6Fetch c6Tree [] ⟨[], []⟩

/-- Two sibling file nodes `X` (id `d1`) and `Y` (id `d2`). -/
def c7Tree : List RNode :=
  [.file "d1".data "X".data none, .file "d2".data "Y".data none]

/-- Remote store that fails for `d1` and serves `"yo"` for `d2`. -/
def c7Fetch : Fetch := fun i => if i == "d2".data then some "yo".data else none

/-- Result of pulling `c7Tree` into an empty document root. -/
def c7Result : FS := sync_tree_to_files c7Fetch c7Tree [] ⟨[], []⟩

/-- Content made of two stacked header blocks followed by a body. -/
def stackedHeaders : Str := "---\na\n---\n---\nb\n---\nrest".data

/-!  Lemmas about the regex model. -/

theorem isPySpace_nl : isPySpace '\n' = true := by decide

theorem wsRun_append (s : Str) : (wsRun s).1 ++ (wsRun s).2 = s := by
  induction s with
  | nil => rfl
  | cons c cs ih =>
    unfold wsRun
    by_cases h : isPySpace c <;> simp [h, ih]

theorem fc_step (acc : Str) (c : Char) (cs : Str) (h : ¬ c = '\n') :
    findClose acc (c :: cs) = findClose (c :: acc) cs := by
  conv_lhs => rw [findClose.eq_def]
  simp [h]

theorem fc_nl_m (acc : Str) (cs : Str) :
    findClose acc ('\n' :: 'm' :: cs) = findClose ('\n' :: acc) ('m' :: cs) := by
  conv_lhs => rw [findClose.eq_def]
  simp

theorem fc_close (acc t r : Str) (h : matchWsNl t = some r) :
    findClose acc ('\n' :: '-' :: '-' :: '-' :: t) = some (acc.reverse, r) := by
  conv_lhs => rw [findClose.eq_def]
  simp [h]

theorem noNl_scan (seg : Str) (h : '\n' ∉ seg) (acc rest : Str) :
    findClose acc (seg ++ rest) = findClose (seg.reverse ++ acc) rest := by
  induction seg generalizing acc with
  | nil => simp
  | cons c cs ih =>
    have hc : ¬ c = '\n' := fun he => h (he ▸ List.mem_cons_self c cs)
    have hcs : '\n' ∉ cs := fun hm => h (List.mem_cons_of_mem c hm)
    rw [List.cons_append, fc_step _ _ _ hc, ih hcs]
    simp

theorem wsRun_nl_nonspace (c : Char) (h : isPySpace c = false) (xs : Str) :
    wsRun ('\n' :: c :: xs) = (['\n'], c :: xs) := by
  simp [wsRun, isPySpace_nl, h]

theorem getLast?_cons_some {α : Type} (x : α) (l : List α) :
    ∃ y, (x :: l).getLast? = some y := by
  induction l generalizing x with
  | nil => exact ⟨x, rfl⟩
  | cons c cs ih =>
    rw [List.getLast?_cons_cons]
    exact ih c

theorem matchWsNl_nlnl (b : Str) :
    matchWsNl ('\n' :: '\n' :: b) =
      some (((nlSplits (wsRun b).1 (wsRun b).2).getLast?).getD b) := by
  have h1 : wsRun ('\n' :: '\n' :: b) = ('\n' :: '\n' :: (wsRun b).1, (wsRun b).2) := by
    simp [wsRun, isPySpace_nl]
  unfold matchWsNl
  rw [h1]
  dsimp only
  have h2 : nlSplits ('\n' :: '\n' :: (wsRun b).1) (wsRun b).2 =
      (('\n' :: (wsRun b).1) ++ (wsRun b).2) ::
        ((wsRun b).1 ++ (wsRun b).2) :: nlSplits (wsRun b).1 (wsRun b).2 := by
    simp [nlSplits]
  rw [h2]
  cases h3 : nlSplits (wsRun b).1 (wsRun b).2 with
  | nil => simp [wsRun_append]
  | cons x l =>
    obtain ⟨y, hy⟩ := getLast?_cons_some x l
    simp [List.getLast?_cons_cons, hy]

theorem matchWsNl_nlnl2 (b : Str) :
    matchWsNl ('\n' :: '\n' :: b) = some (afterWsNl b) := by
  rw [matchWsNl_nlnl]; rfl

theorem ffs_single {α β : Type} (f : α → Option β) (a : α) :
    findFirstSome f [a] = f a := by
  cases h : f a <;> simp [findFirstSome, h]

theorem nlSplits_single (r : Str) : nlSplits ['\n'] r = [r] := by
  simp [nlSplits]

theorem headerMatch_cons (rest : Str) :
    headerMatch ('-' :: '-' :: '-' :: rest) =
      findFirstSome (fun cand => findClose [] cand)
        (nlSplits (wsRun rest).1 (wsRun rest).2).reverse := rfl

theorem fm_shape_noparent (i n b : Str) :
    "---\nmarkd_id: ".data ++ i ++ "\nmarkd_name: ".data ++ n ++ "\n".data
        ++ "---\n\n".data ++ b =
      '-' :: '-' :: '-' :: '\n' ::
        (("markd_id: ".data ++ i ++ '\n' :: ("markd_name: ".data ++ n)) ++
          '\n' :: '-' :: '-' :: '-' :: '\n' :: '\n' :: b) := by
  simp only [List.append_assoc, List.cons_append, List.nil_append]

theorem hm_group_noparent (i n b : Str) (hi : '\n' ∉ i) (hn : '\n' ∉ n) :
    headerMatch ("---\nmarkd_id: ".data ++ i ++ "\nmarkd_name: ".data ++ n
        ++ "\n".data ++ "---\n\n".data ++ b) =
      some ("markd_id: ".data ++ i ++ '\n' :: ("markd_name: ".data ++ n),
        afterWsNl b) := by
  rw [fm_shape_noparent, headerMatch_cons]
  set G := ("markd_id: ".data ++ i ++ '\n' :: ("markd_name: ".data ++ n)) ++
      '\n' :: '-' :: '-' :: '-' :: '\n' :: '\n' :: b with hG
  have hw : wsRun ('\n' :: G) = (['\n'], G) := by
    rw [hG]
    have : ("markd_id: ".data ++ i ++ '\n' :: ("markd_name: ".data ++ n)) ++
        '\n' :: '-' :: '-' :: '-' :: '\n' :: '\n' :: b =
        'm' :: (("arkd_id: ".data ++ i ++ '\n' :: ("markd_name: ".data ++ n)) ++
          '\n' :: '-' :: '-' :: '-' :: '\n' :: '\n' :: b) := by
      simp only [List.append_assoc, List.cons_append, List.nil_append]
    rw [this]
    exact wsRun_nl_nonspace 'm' (by decide) _
  rw [hw, nlSplits_single, List.reverse_singleton, ffs_single]
  rw [hG]
  have h1 : (("markd_id: ".data ++ i ++ '\n' :: ("markd_name: ".data ++ n)) ++
      '\n' :: '-' :: '-' :: '-' :: '\n' :: '\n' :: b) =
      ("markd_id: ".data ++ i) ++ ('\n' :: 'm' ::
        (("arkd_name: ".data ++ n) ++ '\n' :: '-' :: '-' :: '-' :: '\n' :: '\n' :: b)) := by
    simp only [List.append_assoc, List.cons_append, List.nil_append]
  rw [h1, noNl_scan _ (by simp [hi]) _ _, fc_nl_m]
  have h2 : 'm' :: (("arkd_name: ".data ++ n) ++ '\n' :: '-' :: '-' :: '-' :: '\n' :: '\n' :: b) =
      ("markd_name: ".data ++ n) ++ ('\n' :: '-' :: '-' :: '-' :: ('\n' :: '\n' :: b)) := by
    simp only [List.append_assoc, List.cons_append, List.nil_append]
  rw [h2, noNl_scan _ (by simp [hn]) _ _]
  rw [fc_close _ _ _ (matchWsNl_nlnl2 b)]
  simp [List.append_assoc]

theorem hm_group_parent (i n v b : Str) (hi : '\n' ∉ i) (hn : '\n' ∉ n)
    (hv : '\n' ∉ v) :
    headerMatch ("---\nmarkd_id: ".data ++ i ++ "\nmarkd_name: ".data ++ n
        ++ "\n".data ++ "markd_parent: ".data ++ v ++ "\n".data
        ++ "---\n\n".data ++ b) =
      some ("markd_id: ".data ++ i ++ '\n' :: ("markd_name: ".data ++ n)
          ++ '\n' :: ("markd_parent: ".data ++ v),
        afterWsNl b) := by
  have hshape : "---\nmarkd_id: ".data ++ i ++ "\nmarkd_name: ".data ++ n
      ++ "\n".data ++ "markd_parent: ".data ++ v ++ "\n".data
      ++ "---\n\n".data ++ b =
      '-' :: '-' :: '-' :: '\n' ::
        (("markd_id: ".data ++ i) ++ ('\n' :: 'm' ::
          (("arkd_name: ".data ++ n) ++ ('\n' :: 'm' ::
            (("arkd_parent: ".data ++ v) ++
              ('\n' :: '-' :: '-' :: '-' :: ('\n' :: '\n' :: b))))))) := by
    simp only [List.append_assoc, List.cons_append, List.nil_append]
  rw [hshape, headerMatch_cons]
  have hw : wsRun ('\n' :: 'm' :: (("arkd_id: ".data ++ i) ++ ('\n' :: 'm' ::
      (("arkd_name: ".data ++ n) ++ ('\n' :: 'm' ::
        (("arkd_parent: ".data ++ v) ++
          ('\n' :: '-' :: '-' :: '-' :: ('\n' :: '\n' :: b)))))))) =
      (['\n'], 'm' :: (("arkd_id: ".data ++ i) ++ ('\n' :: 'm' ::
      (("arkd_name: ".data ++ n) ++ ('\n' :: 'm' ::
        (("arkd_parent: ".data ++ v) ++
          ('\n' :: '-' :: '-' :: '-' :: ('\n' :: '\n' :: b)))))))) :=
    wsRun_nl_nonspace 'm' (by decide) _
  have hre : ("markd_id: ".data ++ i) ++ ('\n' :: 'm' ::
      (("arkd_name: ".data ++ n) ++ ('\n' :: 'm' ::
        (("arkd_parent: ".data ++ v) ++
          ('\n' :: '-' :: '-' :: '-' :: ('\n' :: '\n' :: b)))))) =
      'm' :: (("arkd_id: ".data ++ i) ++ ('\n' :: 'm' ::
      (("arkd_name: ".data ++ n) ++ ('\n' :: 'm' ::
        (("arkd_parent: ".data ++ v) ++
          ('\n' :: '-' :: '-' :: '-' :: ('\n' :: '\n' :: b))))))) := by
    simp only [List.append_assoc, List.cons_append, List.nil_append]
  rw [hre, hw, nlSplits_single, List.reverse_singleton, ffs_single, ← hre]
  rw [noNl_scan _ (by simp [hi]) _ _, fc_nl_m,
    show 'm' :: (("arkd_name: ".data ++ n) ++ ('\n' :: 'm' ::
        (("arkd_parent: ".data ++ v) ++
          ('\n' :: '-' :: '-' :: '-' :: ('\n' :: '\n' :: b))))) =
      ("markd_name: ".data ++ n) ++ ('\n' :: 'm' ::
        (("arkd_parent: ".data ++ v) ++
          ('\n' :: '-' :: '-' :: '-' :: ('\n' :: '\n' :: b)))) from by
      simp only [List.append_assoc, List.cons_append, List.nil_append]]
  rw [noNl_scan _ (by simp [hn]) _ _, fc_nl_m,
    show 'm' :: (("arkd_parent: ".data ++ v) ++
        ('\n' :: '-' :: '-' :: '-' :: ('\n' :: '\n' :: b))) =
      ("markd_parent: ".data ++ v) ++
        ('\n' :: '-' :: '-' :: '-' :: ('\n' :: '\n' :: b)) from by
      simp only [List.append_assoc, List.cons_append, List.nil_append]]
  rw [noNl_scan _ (by simp [hv]) _ _]
  rw [fc_close _ _ _ (matchWsNl_nlnl2 b)]
  simp [List.append_assoc]

theorem add_eq (c i n : Str) (p : Option Str) :
    add_metadata_to_content c i n p = mkFrontmatter i n p ++ injBody c := rfl

theorem mkFrontmatter_flat_noparent (i n : Str) (p : Option Str)
    (hp : truthyOpt p = false) :
    mkFrontmatter i n p = "---\nmarkd_id: ".data ++ i ++ "\nmarkd_name: ".data
      ++ n ++ "\n".data ++ "---\n\n".data := by
  simp [mkFrontmatter, hp, List.append_assoc]

theorem mkFrontmatter_flat_parent (i n v : Str) :
    mkFrontmatter i n (some v) = "---\nmarkd_id: ".data ++ i
      ++ "\nmarkd_name: ".data ++ n ++ "\n".data ++ "markd_parent: ".data
      ++ v ++ "\n".data ++ "---\n\n".data ∨ v = [] := by
  by_cases hv : v = []
  · exact Or.inr hv
  · left
    have : truthyOpt (some v) = true := by simp [truthyOpt, hv]
    simp [mkFrontmatter, this, List.append_assoc]

theorem headerMatch_fm_append (i n : Str) (p : Option Str) (b : Str)
    (hi : '\n' ∉ i) (hn : '\n' ∉ n) (hp : ∀ v, p = some v → '\n' ∉ v) :
    headerMatch (mkFrontmatter i n p ++ b) = some (mkGroup i n p, afterWsNl b) := by
  by_cases ht : truthyOpt p = true
  · obtain ⟨v, rfl⟩ : ∃ v, p = some v := by
      cases p with
      | none => simp [truthyOpt] at ht
      | some v => exact ⟨v, rfl⟩
    have hv : '\n' ∉ v := hp v rfl
    rcases mkFrontmatter_flat_parent i n v with hfm | hnil
    · rw [hfm, mkGroup, if_pos ht]
      have := hm_group_parent i n v b hi hn hv
      simpa [List.append_assoc, List.cons_append] using this
    · subst hnil
      simp [truthyOpt] at ht
  · have hf : truthyOpt p = false := by simpa using ht
    rw [mkFrontmatter_flat_noparent i n p hf, mkGroup, if_neg (by simp [hf])]
    have := hm_group_noparent i n b hi hn
    simpa [List.append_assoc, List.cons_append] using this

theorem strip_add (c i n : Str) (p : Option Str)
    (hi : '\n' ∉ i) (hn : '\n' ∉ n) (hp : ∀ v, p = some v → '\n' ∉ v) :
    strip_metadata (add_metadata_to_content c i n p) = afterWsNl (injBody c) := by
  rw [add_eq, strip_metadata, headerMatch_fm_append i n p _ hi hn hp]

theorem matchesOpen_fm_append (i n : Str) (p : Option Str) (b : Str) :
    matchesOpen (mkFrontmatter i n p ++ b) = true := by
  by_cases ht : truthyOpt p = true
  · obtain ⟨v, rfl⟩ : ∃ v, p = some v := by
      cases p with
      | none => simp [truthyOpt] at ht
      | some v => exact ⟨v, rfl⟩
    rcases mkFrontmatter_flat_parent i n v with hfm | hnil
    · rw [hfm]
      have hshape : "---\nmarkd_id: ".data ++ i ++ "\nmarkd_name: ".data ++ n
          ++ "\n".data ++ "markd_parent: ".data ++ v ++ "\n".data
          ++ "---\n\n".data ++ b =
          '-' :: '-' :: '-' :: '\n' :: 'm' ::
            (("arkd_id: ".data ++ i) ++ ("\nmarkd_name: ".data ++ n
              ++ "\n".data ++ "markd_parent: ".data ++ v ++ "\n".data
              ++ "---\n\n".data ++ b)) := by
        simp only [List.append_assoc, List.cons_append, List.nil_append]
      rw [hshape, matchesOpen, wsRun_nl_nonspace 'm' (by decide), nlSplits_single]
      simp
    · subst hnil
      simp [truthyOpt] at ht
  · have hf : truthyOpt p = false := by simpa using ht
    rw [mkFrontmatter_flat_noparent i n p hf]
    have hshape : "---\nmarkd_id: ".data ++ i ++ "\nmarkd_name: ".data ++ n
        ++ "\n".data ++ "---\n\n".data ++ b =
        '-' :: '-' :: '-' :: '\n' :: 'm' ::
          (("arkd_id: ".data ++ i) ++ ("\nmarkd_name: ".data ++ n
            ++ "\n".data ++ "---\n\n".data ++ b)) := by
      simp only [List.append_assoc, List.cons_append, List.nil_append]
    rw [hshape, matchesOpen, wsRun_nl_nonspace 'm' (by decide), nlSplits_single]
    simp

theorem injBody_of_none (c : Str) (hc : headerMatch c = none) : injBody c = c := by
  rw [injBody]
  split <;> simp [strip_metadata, hc]

theorem afterWsNl_of_noNlWs (c : Str) (hws : nlSplits (wsRun c).1 (wsRun c).2 = []) :
    afterWsNl c = c := by
  rw [afterWsNl, hws]
  rfl

theorem splitNl_line (l1 rest : Str) (h : '\n' ∉ l1) :
    splitNl (l1 ++ '\n' :: rest) = l1 :: splitNl rest := by
  induction l1 with
  | nil => simp [splitNl]
  | cons c cs ih =>
    have hc : ¬ c = '\n' := fun he => h (he ▸ List.mem_cons_self c cs)
    have hcs : '\n' ∉ cs := fun hm => h (List.mem_cons_of_mem c hm)
    rw [List.cons_append, splitNl, if_neg hc, ih hcs]

theorem splitNl_noNl (l : Str) (h : '\n' ∉ l) : splitNl l = [l] := by
  induction l with
  | nil => rfl
  | cons c cs ih =>
    have hc : ¬ c = '\n' := fun he => h (he ▸ List.mem_cons_self c cs)
    have hcs : '\n' ∉ cs := fun hm => h (List.mem_cons_of_mem c hm)
    rw [splitNl, if_neg hc, ih hcs]

theorem splitColon1_idLine (v : Str) :
    splitColon1 [] ("markd_id: ".data ++ v) = some ("markd_id".data, ' ' :: v) := rfl

theorem splitColon1_nameLine (v : Str) :
    splitColon1 [] ("markd_name: ".data ++ v) = some ("markd_name".data, ' ' :: v) := rfl

theorem splitColon1_parentLine (v : Str) :
    splitColon1 [] ("markd_parent: ".data ++ v) = some ("markd_parent".data, ' ' :: v) := rfl

theorem pyStrip_space_cons (v : Str) : pyStrip (' ' :: v) = pyStrip v := by
  simp [pyStrip, List.dropWhile]
  rfl

theorem processLine_idLine (m : Meta) (i : Str) :
    processLine m ("markd_id: ".data ++ i) =
      mset m "markd_id".data (stripQuotes (pyStrip i)) := by
  rw [processLine, splitColon1_idLine]
  dsimp only
  have h1 : pyStrip "markd_id".data = "markd_id".data := by decide
  rw [pyStrip_space_cons, h1]

theorem processLine_nameLine (m : Meta) (n : Str) :
    processLine m ("markd_name: ".data ++ n) =
      mset m "markd_name".data (stripQuotes (pyStrip n)) := by
  rw [processLine, splitColon1_nameLine]
  dsimp only
  have h1 : pyStrip "markd_name".data = "markd_name".data := by decide
  rw [pyStrip_space_cons, h1]

theorem processLine_parentLine (m : Meta) (v : Str) :
    processLine m ("markd_parent: ".data ++ v) =
      mset m "markd_parent".data (stripQuotes (pyStrip v)) := by
  rw [processLine, splitColon1_parentLine]
  dsimp only
  have h1 : pyStrip "markd_parent".data = "markd_parent".data := by decide
  rw [pyStrip_space_cons, h1]

theorem extract_add (c i n : Str) (p : Option Str)
    (hi : '\n' ∉ i) (hn : '\n' ∉ n) (hp : ∀ v, p = some v → '\n' ∉ v) :
    extract_metadata (add_metadata_to_content c i n p) =
      (if truthyOpt p then
        [("markd_id".data, stripQuotes (pyStrip i)),
         ("markd_name".data, stripQuotes (pyStrip n)),
         ("markd_parent".data, stripQuotes (pyStrip (p.getD [])))]
      else
        [("markd_id".data, stripQuotes (pyStrip i)),
         ("markd_name".data, stripQuotes (pyStrip n))]) := by
  rw [extract_metadata, add_eq, headerMatch_fm_append i n p _ hi hn hp]
  dsimp only
  by_cases ht : truthyOpt p = true
  · obtain ⟨v, rfl⟩ : ∃ v, p = some v := by
      cases p with
      | none => simp [truthyOpt] at ht
      | some v => exact ⟨v, rfl⟩
    have hv : '\n' ∉ v := hp v rfl
    rw [mkGroup, if_pos ht, ht, if_pos rfl]
    rw [splitNl_line _ _ (by simp [hi]), splitNl_line _ _ (by simp [hn]),
      splitNl_noNl _ (by simp [hv])]
    simp only [List.foldl]
    rw [processLine_idLine, processLine_nameLine, processLine_parentLine]
    have e1 : mset [] "markd_id".data (stripQuotes (pyStrip i)) =
        [("markd_id".data, stripQuotes (pyStrip i))] := by
      simp [mset]
    rw [e1]
    have e2 : mset [("markd_id".data, stripQuotes (pyStrip i))] "markd_name".data
        (stripQuotes (pyStrip n)) =
        [("markd_id".data, stripQuotes (pyStrip i)),
         ("markd_name".data, stripQuotes (pyStrip n))] := by
      simp [mset]
    rw [e2]
    simp [mset]
  · have hf : truthyOpt p = false := by simpa using ht
    rw [mkGroup, if_neg (by simp [hf]), hf, if_neg (by simp)]
    rw [splitNl_line _ _ (by simp [hi]), splitNl_noNl _ (by simp [hn])]
    simp only [List.foldl]
    rw [processLine_idLine, processLine_nameLine]
    have e1 : mset [] "markd_id".data (stripQuotes (pyStrip i)) =
        [("markd_id".data, stripQuotes (pyStrip i))] := by
      simp [mset]
    rw [e1]
    simp [mset]


theorem mget_extract_add_id (c i n : Str) (p : Option Str)
    (hi : '\n' ∉ i) (hn : '\n' ∉ n) (hp : ∀ v, p = some v → '\n' ∉ v) :
    mget (extract_metadata (add_metadata_to_content c i n p)) "markd_id".data =
      some (stripQuotes (pyStrip i)) := by
  rw [extract_add c i n p hi hn hp]
  by_cases ht : truthyOpt p = true <;> simp [ht, mget, List.find?]

theorem push_write_only_create (env : PushEnv) :
    ((push_file env).written).isSome = true →
      ∃ content newId, env.fileContent = some content ∧
        truthyOpt (mget (extract_metadata content) "markd_id".data) = false ∧
        env.createResp = .ok newId := by
  intro h
  cases hc : env.fileContent with
  | none =>
    rw [push_file, hc] at h
    simp at h
  | some content =>
    rw [push_file, hc] at h
    dsimp only at h
    by_cases ht : truthyOpt (mget (extract_metadata content) "markd_id".data) = true
    · rw [if_pos ht] at h
      cases hu : env.updateResp <;> rw [hu] at h <;> simp at h
    · have hf : truthyOpt (mget (extract_metadata content) "markd_id".data) = false := by
        simpa using ht
      cases hcr : env.createResp with
      | error e =>
        rw [if_neg (by simp [hf]), hcr] at h
        simp at h
      | ok newId => exact ⟨content, newId, rfl, hf, rfl⟩

/-- C5 (New-file push, amended): when the file's extracted header has no
truthy `markd_id` and `createDocument` succeeds with id `newId`, `push_file`
issues the create call with the stripped body, resolved name and header
parent, and rewrites the file with a header injecting `newId` (and the name,
and the prior header's `markd_parent` if present); the rewritten header's
`markd_id` equals exactly `newId` PROVIDED `newId` contains no newline and no
surrounding whitespace or quote characters and the resolved name and parent
contain no newline.  Moreover the create branch is the only push path that
ever writes to the file. -/
theorem push_file_create (env : PushEnv) (content newId : Str)
    (hc : env.fileContent = some content)
    (hid : truthyOpt (mget (extract_metadata content) "markd_id".data) = false)
    (hok : env.createResp = .ok newId)
    (hni : '\n' ∉ newId) (hps : pyStrip newId = newId)
    (hq : stripQuotes newId = newId)
    (hn : '\n' ∉ resolveName (extract_metadata content) env.stem)
    (hp : ∀ v, mget (extract_metadata content) "markd_parent".data = some v →
      '\n' ∉ v) :
    (push_file env).call = some (.create
        (resolveName (extract_metadata content) env.stem)
        (strip_metadata content)
        (mget (extract_metadata content) "markd_parent".data)) ∧
    (push_file env).written = some (add_metadata_to_content content newId
        (resolveName (extract_metadata content) env.stem)
        (mget (extract_metadata content) "markd_parent".data)) ∧
    mget (extract_metadata (((push_file env).written).getD []))
        "markd_id".data = some newId ∧
    (∀ env2 : PushEnv, ((push_file env2).written).isSome = true →
      ∃ c2 id2, env2.fileContent = some c2 ∧
        truthyOpt (mget (extract_metadata c2) "markd_id".data) = false ∧
        env2.createResp = .ok id2) := by
  have hpf : push_file env = ⟨some (.create
        (resolveName (extract_metadata content) env.stem)
        (strip_metadata content)
        (mget (extract_metadata content) "markd_parent".data)),
      some (add_metadata_to_content content newId
        (resolveName (extract_metadata content) env.stem)
        (mget (extract_metadata content) "markd_parent".data)),
      none⟩ := by
    rw [push_file, hc]
    dsimp only
    rw [if_neg (by simp [hid]), hok]
  refine ⟨by rw [hpf], by rw [hpf], ?_, push_write_only_create⟩
  rw [hpf]
  simp only [Option.getD_some]
  rw [mget_extract_add_id _ _ _ _ hni hn hp, hps, hq]

/-- C8 (Push never propagates failure): `push_file` returns normally in
every failure case — a missing/unreadable file yields a caught read error
with no API call and no write; a create-path `RemoteError` yields the
attempted create call, the caught response body, and no write; an
update-path `RemoteError` yields the attempted update call with exactly the
extracted id, the caught response body, and no write. -/
theorem push_file_catches (env : PushEnv) :
    (env.fileContent = none →
      push_file env = ⟨none, none, some readErrMsg⟩) ∧
    (∀ content e, env.fileContent = some content →
      truthyOpt (mget (extract_metadata content) "markd_id".data) = false →
      env.createResp = .error e →
      push_file env = ⟨some (.create
          (resolveName (extract_metadata content) env.stem)
          (strip_metadata content)
          (mget (extract_metadata content) "markd_parent".data)),
        none, some e⟩) ∧
    (∀ content X e, env.fileContent = some content →
      mget (extract_metadata content) "markd_id".data = some X → X ≠ [] →
      env.updateResp = .error e →
      push_file env = ⟨some (.update X (strip_metadata content)
          (resolveName (extract_metadata content) env.stem)),
        none, some e⟩) := by
  refine ⟨fun hc => by rw [push_file, hc], ?_, ?_⟩
  · intro content e hc hid hcr
    rw [push_file, hc]
    dsimp only
    rw [if_neg (by simp [hid]), hcr]
  · intro content X e hc hX hne hu
    obtain ⟨a, as, rfl⟩ : ∃ a as, X = a :: as := by
      cases X with
      | nil => exact absurd rfl hne
      | cons a as => exact ⟨a, as, rfl⟩
    have ht : truthyOpt (mget (extract_metadata content) "markd_id".data) = true := by
      rw [hX]; rfl
    rw [push_file, hc]
    dsimp only
    rw [if_pos ht, hX, hu]
    rfl

/-- C10 (Empty-valued identity treated as absent): when the extracted
header maps `markd_id` to the empty string, `push_file` takes the create
path exactly as for a missing `markd_id` — it issues the create call with
the resolved name, stripped body and header parent, and on create success
rewrites the file with the newly returned id; likewise a header mapping
`markd_name` to the empty string makes the resolved document name fall back
to the filename stem. -/
theorem push_file_empty_id (env : PushEnv) (content : Str)
    (hc : env.fileContent = some content)
    (hid0 : mget (extract_metadata content) "markd_id".data = some []) :
    (push_file env).call = some (.create
        (resolveName (extract_metadata content) env.stem)
        (strip_metadata content)
        (mget (extract_metadata content) "markd_parent".data)) ∧
    (∀ newId, env.createResp = .ok newId →
      (push_file env).written = some (add_metadata_to_content content newId
        (resolveName (extract_metadata content) env.stem)
        (mget (extract_metadata content) "markd_parent".data))) ∧
    (∀ (m : Meta) (stem : Str), mget m "markd_name".data = some [] →
      resolveName m stem = stem) := by
  have hf : truthyOpt (mget (extract_metadata content) "markd_id".data) = false := by
    rw [hid0]; rfl
  refine ⟨?_, ?_, ?_⟩
  · rw [push_file, hc]
    dsimp only
    rw [if_neg (by simp [hf])]
    cases hcr : env.createResp <;> simp
  · intro newId hok
    rw [push_file, hc]
    dsimp only
    rw [if_neg (by simp [hf]), hok]
  · intro m stem hm
    rw [resolveName, hm]
    rfl


/-!  Claim theorems. -/

/-- C1 (Debounce coalescing): for one tracked path receiving create/modify
events at t=0, t=1/2 and t=1 with `debounce_time = 2`, running the scheduler
over the resulting timeline (events plus the three timer firings at t=2, 5/2,
3, in time order) fires exactly one push, at time 3 (which is at or after 3);
the content pushed is the file's content sampled at the fire time (`f 3`,
for any content history `f`, not `f 0`); and the freshness check
`now - observed_at ≥ debounce_time` of the two earlier-armed timers (armed at
0 and 1/2, firing against the pending timestamp 1) produces no push. -/
theorem debounce_coalescing :
    schedRun 2 none scenarioHaps = [3] ∧
    (∀ t ∈ schedRun 2 none scenarioHaps, 3 ≤ t) ∧
    (∀ (α : Type) (f : ℚ → α), (schedRun 2 none scenarioHaps).map f = [f 3]) ∧
    schedStep 2 (some 1) (.fire 0) = (some 1, none) ∧
    schedStep 2 (some 1) (.fire (1/2)) = (some 1, none) ∧
    List.Chain' (fun a b => hapTime 2 a ≤ hapTime 2 b) scenarioHaps := by
  have h1 : schedRun 2 none scenarioHaps = [3] := by
    norm_num [schedRun, schedStep, scenarioHaps]
  refine ⟨h1, ?_, ?_, ?_, ?_, ?_⟩
  · rw [h1]; intro t ht; simp at ht; rw [ht]
  · intro α f; rw [h1]; simp
  · norm_num [schedStep]
  · norm_num [schedStep]
  · norm_num [scenarioHaps, hapTime]

/-- C2 (Existing-file push): whenever the file's extracted header has a
non-empty `markd_id` value `X`, `push_file` issues an update call with
exactly document id `X`, the stripped body and the resolved name, and writes
nothing back to the file — its header (the whole file) stays byte-for-byte
unchanged, preserving the assigned remote id verbatim. -/
theorem existing_file_push_update (env : PushEnv) (content X : Str)
    (hc : env.fileContent = some content)
    (hX : mget (extract_metadata content) "markd_id".data = some X)
    (hne : X ≠ []) :
    (push_file env).call = some (.update X (strip_metadata content)
        (resolveName (extract_metadata content) env.stem)) ∧
      (push_file env).written = none := by
  obtain ⟨a, as, rfl⟩ : ∃ a as, X = a :: as := by
    cases X with
    | nil => exact absurd rfl hne
    | cons a as => exact ⟨a, as, rfl⟩
  have ht : truthyOpt (mget (extract_metadata content) "markd_id".data) = true := by
    rw [hX]; rfl
  rw [push_file, hc]
  dsimp only
  rw [if_pos ht, hX]
  cases h : env.updateResp <;> simp

/-- C2 witness: a concrete push of a file injected with id `x1` issues an
update with id `x1` and writes nothing. -/
theorem existing_file_push_update_witness :
    (push_file c2Env).call = some (.update "x1".data (strip_metadata c2Content)
        (resolveName (extract_metadata c2Content) c2Env.stem)) ∧
      (push_file c2Env).written = none :=
  existing_file_push_update c2Env c2Content "x1".data rfl (by decide) (by decide)



/-- C3 counterexample: inject is not idempotent for arbitrary inputs.  With
body `"\nx"` (leading newline) the round `inject(strip(inject(c)))` loses the
newline, and with a body made of two stacked header blocks the second block
is also consumed, so both sides differ; the double-application half fails on
an id containing a newline. -/
theorem inject_idempotence_cx :
    add_metadata_to_content
        (strip_metadata (add_metadata_to_content "\nx".data "i".data "n".data none))
        "i".data "n".data none ≠
      add_metadata_to_content "\nx".data "i".data "n".data none ∧
    add_metadata_to_content
        (strip_metadata (add_metadata_to_content stackedHeaders "i".data "n".data none))
        "i".data "n".data none ≠
      add_metadata_to_content stackedHeaders "i".data "n".data none ∧
    add_metadata_to_content
        (add_metadata_to_content "x".data "i\n---\nz".data "n".data none)
        "i\n---\nz".data "n".data none ≠
      add_metadata_to_content "x".data "i\n---\nz".data "n".data none := by
  refine ⟨by decide, by decide, by decide⟩

/-- C3 (Inject is idempotent, amended): provided the id, name and parent
value contain no newline, and the body left after removing `c`'s leading
header block neither starts with another header block nor has leading
whitespace containing a newline, then
`inject(strip(inject(c,id,n,p)),id,n,p) = inject(c,id,n,p)` and applying
inject twice with the same arguments equals applying it once (the
pre-existing header block is fully removed, never merged). -/
theorem inject_idempotence (c i n : Str) (p : Option Str)
    (hi : '\n' ∉ i) (hn : '\n' ∉ n) (hp : ∀ v, p = some v → '\n' ∉ v)
    (hB : headerMatch (injBody c) = none)
    (hws : nlSplits (wsRun (injBody c)).1 (wsRun (injBody c)).2 = []) :
    add_metadata_to_content
        (strip_metadata (add_metadata_to_content c i n p)) i n p =
      add_metadata_to_content c i n p ∧
    add_metadata_to_content (add_metadata_to_content c i n p) i n p =
      add_metadata_to_content c i n p := by
  have hstrip : strip_metadata (add_metadata_to_content c i n p) = injBody c := by
    rw [strip_add c i n p hi hn hp, afterWsNl_of_noNlWs _ hws]
  constructor
  · rw [hstrip, add_eq, add_eq c, injBody_of_none _ hB]
  · have hmo : matchesOpen (add_metadata_to_content c i n p) = true := by
      rw [add_eq]; exact matchesOpen_fm_append i n p (injBody c)
    have hib : injBody (add_metadata_to_content c i n p) = injBody c := by
      rw [injBody, if_pos hmo, hstrip]
    conv_lhs => rw [add_eq]
    rw [hib, ← add_eq]

/-- C3 witness: the amended idempotence at body `"body"`, id `i`, name `n`,
no parent. -/
theorem inject_idempotence_witness :
    add_metadata_to_content
        (strip_metadata (add_metadata_to_content "body".data "i".data "n".data none))
        "i".data "n".data none =
      add_metadata_to_content "body".data "i".data "n".data none ∧
    add_metadata_to_content
        (add_metadata_to_content "body".data "i".data "n".data none)
        "i".data "n".data none =
      add_metadata_to_content "body".data "i".data "n".data none :=
  inject_idempotence "body".data "i".data "n".data none (by decide) (by decide)
    (fun v h => Option.noConfusion h) (by decide) (by decide)

/-- C4 counterexample: the round-trip fails as universally stated.  The body
`"\nx"` starts with no header block, yet `strip(inject(c))` returns `"x"`
(the closing delimiter's greedy `\s*\n` swallows the body's leading
newline); and with an id containing `\n---\n`, the injected header's close
is found early, so stripping does not recover the body `"x"` either. -/
theorem strip_inject_roundtrip_cx :
    headerMatch "\nx".data = none ∧
    strip_metadata (add_metadata_to_content "\nx".data "i".data "n".data none) ≠
      "\nx".data ∧
    headerMatch "x".data = none ∧
    strip_metadata (add_metadata_to_content "x".data "i\n---\nz".data "n".data none) ≠
      "x".data := by
  refine ⟨by decide, by decide, by decide, by decide⟩

/-- C4 (Round-trip, amended): provided the id, name and parent value contain
no newline, `c` does not begin with a header block, and `c`'s leading
whitespace contains no newline, `strip(inject(c,id,n,p))` reproduces exactly
the body `c`; and `strip(c)` itself returns `c` unchanged whenever no header
block is found at the start. -/
theorem strip_inject_roundtrip (c i n : Str) (p : Option Str)
    (hi : '\n' ∉ i) (hn : '\n' ∉ n) (hp : ∀ v, p = some v → '\n' ∉ v)
    (hc : headerMatch c = none)
    (hws : nlSplits (wsRun c).1 (wsRun c).2 = []) :
    strip_metadata (add_metadata_to_content c i n p) = c ∧
      strip_metadata c = c := by
  have h2 : strip_metadata c = c := by simp [strip_metadata, hc]
  refine ⟨?_, h2⟩
  rw [strip_add c i n p hi hn hp, injBody_of_none c hc, afterWsNl_of_noNlWs c hws]

/-- C4 witness: the amended round-trip at body `"body"`, id `i`, name `n`,
no parent. -/
theorem strip_inject_roundtrip_witness :
    strip_metadata (add_metadata_to_content "body".data "i".data "n".data none) =
        "body".data ∧
      strip_metadata "body".data = "body".data :=
  strip_inject_roundtrip "body".data "i".data "n".data none (by decide) (by decide)
    (fun v h => Option.noConfusion h) (by decide) (by decide)



/-- C5 counterexample: when create returns an id containing a newline
(`"a\nb"`), the push does rewrite the file, but the header the file then
carries has `markd_id` value `"a"`, not the id `"a\nb"` returned by create —
the claim's "remote_id equals exactly the id returned by createDocument"
fails without a well-formedness condition on the returned id. -/
theorem new_file_push_cx :
    ((push_file c5Env).written).isSome = true ∧
    mget (extract_metadata (((push_file c5Env).written).getD []))
        "markd_id".data = some "a".data ∧
    ("a".data : Str) ≠ "a\nb".data := by
  refine ⟨by decide, by decide, by decide⟩

/-- C5 witness: pushing an empty headerless file with create returning id
`nid` issues the create call, rewrites the file with the injected header, and
the rewritten header's `markd_id` is exactly `nid`. -/
theorem new_file_push_create_witness :
    (push_file c5wEnv).call = some (.create
        (resolveName (extract_metadata []) c5wEnv.stem)
        (strip_metadata [])
        (mget (extract_metadata []) "markd_parent".data)) ∧
    (push_file c5wEnv).written = some (add_metadata_to_content [] "nid".data
        (resolveName (extract_metadata []) c5wEnv.stem)
        (mget (extract_metadata []) "markd_parent".data)) ∧
    mget (extract_metadata (((push_file c5wEnv).written).getD []))
        "markd_id".data = some "nid".data := by
  have h := push_file_create c5wEnv [] "nid".data rfl (by decide) rfl
    (by decide) (by decide) (by decide) (by decide)
    (by
      intro v hv
      rw [show mget (extract_metadata ([] : Str)) "markd_parent".data = none
        from by decide] at hv
      exact Option.noConfusion hv)
  exact ⟨h.1, h.2.1, h.2.2.1⟩



theorem c6_result_eq : c6Result =
    ⟨[(["A".data, "B.md".data],
        add_metadata_to_content "hi".data "b1".data "B".data (some "a1".data))],
      [["A".data]]⟩ := by
  simp [c6Result, sync_tree_to_files, c6Tree, c6Fetch, get_document_content,
    mkdirFs, writeFs]

/-- C6 (Tree reconciliation): pulling the remote tree
`Folder("A", children=[File("B", "hi")])` into an empty document root yields
a filesystem whose directory set contains `A/` and whose file `A/B.md` holds
the fetched body under a fresh header: its stripped body is `"hi"` and its
header's `markd_id` equals `b1`, the remote id of node `B` (the folder's
subdirectory was the recursive target).  Creating a directory is total and,
membership-wise, creating one that already exists is a no-op. -/
theorem tree_pull_reconciliation :
    (["A".data] ∈ c6Result.dirs) ∧
    readFs c6Result ["A".data, "B.md".data] =
      some (add_metadata_to_content "hi".data "b1".data "B".data (some "a1".data)) ∧
    strip_metadata ((readFs c6Result ["A".data, "B.md".data]).getD []) = "hi".data ∧
    mget (extract_metadata ((readFs c6Result ["A".data, "B.md".data]).getD []))
      "markd_id".data = some "b1".data ∧
    (∀ (fs : FS) (p q : List Str), q ∈ (mkdirFs fs p).dirs ↔ (q = p ∨ q ∈ fs.dirs)) := by
  rw [c6_result_eq]
  refine ⟨by decide, by decide, by decide, by decide, ?_⟩
  intro fs p q
  simp [mkdirFs]

theorem c7_result_eq : c7Result =
    ⟨[(["Y.md".data], add_metadata_to_content "yo".data "d2".data "Y".data none),
      (["X.md".data], add_metadata_to_content [] "d1".data "X".data none)],
      []⟩ := by
  simp [c7Result, sync_tree_to_files, c7Tree, c7Fetch, get_document_content, writeFs]

/-- C7 (Lenient content fetch and pull resilience): `get_document_content`
returns the empty string, not an error, whenever the server reports a
non-success status; consequently, pulling two sibling file nodes where the
fetch for `X` (id `d1`) fails writes `X.md` with an empty body while the
sibling `Y.md` is still written with its fetched body. -/
theorem lenient_fetch_resilience :
    (∀ (fetch : Fetch) (doc_id : Str), fetch doc_id = none →
      get_document_content fetch doc_id = []) ∧
    c7Fetch "d1".data = none ∧
    readFs c7Result ["X.md".data] =
      some (add_metadata_to_content [] "d1".data "X".data none) ∧
    strip_metadata ((readFs c7Result ["X.md".data]).getD "x".data) = [] ∧
    readFs c7Result ["Y.md".data] =
      some (add_metadata_to_content "yo".data "d2".data "Y".data none) := by
  rw [c7_result_eq]
  refine ⟨?_, by decide, by decide, by decide, by decide⟩
  intro fetch doc_id h
  simp [get_document_content, h]

/-- C7 witness: a fetch that always fails yields the empty string. -/
theorem lenient_fetch_resilience_witness :
    get_document_content (fun _ => none) "z".data = [] :=
  lenient_fetch_resilience.1 (fun _ => none) "z".data rfl

/-- C9 (Extraction correctness): extracting the header injected into the
empty content with id `abc`, name `Doc` and parent `parent1` yields exactly
the mapping `markd_id = abc`, `markd_name = Doc`, `markd_parent = parent1`
(in the on-disk key encoding); a line without a `:` separator is ignored
rather than an error; and keys and values are trimmed with surrounding
quotes around the value stripped. -/
theorem extract_inject_correct :
    extract_metadata (add_metadata_to_content [] "abc".data "Doc".data
        (some "parent1".data)) =
      [("markd_id".data, "abc".data), ("markd_name".data, "Doc".data),
       ("markd_parent".data, "parent1".data)] ∧
    (∀ (m : Meta) (line : Str), ':' ∉ line → processLine m line = m) ∧
    processLine [] "  key :  ' v'  ".data = [("key".data, " v".data)] := by
  refine ⟨by decide, ?_, by decide⟩
  intro m line h
  rw [processLine]
  have hnone : ∀ acc, splitColon1 acc line = none := by
    induction line with
    | nil => intro acc; rfl
    | cons c cs ih =>
      intro acc
      have hc : ¬ c = ':' := fun he => h (he ▸ List.mem_cons_self c cs)
      have hcs : ':' ∉ cs := fun hm => h (List.mem_cons_of_mem c hm)
      rw [splitColon1, if_neg hc]
      exact (by
        have := ih hcs
        exact this (c :: acc))
  rw [hnone []]

/-- C9 witness: a line without a separator leaves the metadata unchanged. -/
theorem extract_inject_correct_witness :
    processLine [("a".data, "b".data)] "noseparator".data =
      [("a".data, "b".data)] :=
  extract_inject_correct.2.1 [("a".data, "b".data)] "noseparator".data (by decide)



/-- C8 witness: three concrete failing pushes — a missing file, a failing
create, and a failing update — each return normally with the error caught
and no file write. -/
theorem push_error_containment_witness :
    push_file c8EnvMissing = ⟨none, none, some readErrMsg⟩ ∧
    push_file c8EnvCreateFail = ⟨some (.create
        (resolveName (extract_metadata []) c8EnvCreateFail.stem)
        (strip_metadata [])
        (mget (extract_metadata []) "markd_parent".data)),
      none, some "boom".data⟩ ∧
    push_file c8EnvUpdateFail = ⟨some (.update "x1".data
        (strip_metadata c2Content)
        (resolveName (extract_metadata c2Content) c8EnvUpdateFail.stem)),
      none, some "uerr".data⟩ :=
  ⟨(push_file_catches c8EnvMissing).1 rfl,
   (push_file_catches c8EnvCreateFail).2.1 [] "boom".data rfl (by decide) rfl,
   (push_file_catches c8EnvUpdateFail).2.2 c2Content "x1".data "uerr".data rfl
     (by decide) (by decide) rfl⟩

/-- C10 witness: a file whose header has `markd_id: ""` takes the create
path, is rewritten with the returned id `nid`, and its empty `markd_name`
makes the document name fall back to the stem. -/
theorem empty_identity_push_witness :
    (push_file c10Env).call = some (.create
        (resolveName (extract_metadata c10Content) c10Env.stem)
        (strip_metadata c10Content)
        (mget (extract_metadata c10Content) "markd_parent".data)) ∧
    (push_file c10Env).written = some (add_metadata_to_content c10Content
        "nid".data
        (resolveName (extract_metadata c10Content) c10Env.stem)
        (mget (extract_metadata c10Content) "markd_parent".data)) ∧
    resolveName (extract_metadata c10Content) "q".data = "q".data := by
  have h := push_file_empty_id c10Env c10Content rfl (by decide)
  exact ⟨h.1, h.2.1 "nid".data rfl, h.2.2 (extract_metadata c10Content) "q".data (by decide)⟩

end MarkdSync
